import Mathlib

/-!
Verification development for the `tax_wedge_2025` repository.

The repository holds two plotting scripts:

* script 1, `OECD_tax_wedge_by_taxpayer_type.py`: reads a four-column sheet
  (country plus three tax-wedge measures), drops incomplete rows, precomputes
  one sorted "view" per measure (descending sort, per-connector styling,
  highlighted tick labels for "United Kingdom"), builds a figure of
  `num_countries` connector traces followed by three point traces, a sort
  dropdown whose buttons restyle `x`, `y`, `line.color`, `line.width`, and a
  connector toggle whose two restyle masks cover every trace.

* script 2, `oecd_tax_wedge_all_countries_all_incomes.py`: reads four scenario
  sheets (columns `B:AO`, one column consumed as the numeric index), fills
  missing cells with `interpolate(method='linear', axis=0)`, builds one trace
  per (scenario, country) with an initial visibility rule, and a scenario
  dropdown whose buttons carry a full per-trace visibility mask.

Numeric cell values are modelled as rationals; missing cells as `Option`.
-/

/-- Plotly trace visibility: `True`, `'legendonly'`, or `False`. -/
inductive Vis where
  | visible
  | legendonly
  | hidden
deriving DecidableEq, Repr

/- ------------------------------------------------------------------ -/
/- Script 1: `OECD_tax_wedge_by_taxpayer_type.py`                      -/
/- ------------------------------------------------------------------ -/

/-- One row of script 1's cleaned dataframe: a country and its three
tax-wedge measures (columns renamed on line 32 of the script). -/
structure Row where
  country : String
  single_worker : ℚ
  family_single_earner : ℚ
  family_two_earners : ℚ
deriving DecidableEq, Repr

/-- The three sort columns of `sort_columns_list` (script 1, line 38). -/
inductive SortCol where
  | single_worker
  | family_single_earner
  | family_two_earners
deriving DecidableEq, Repr

/-- The value a sort column extracts from a row. -/
def SortCol.value : SortCol → Row → ℚ
  | .single_worker, r => r.single_worker
  | .family_single_earner, r => r.family_single_earner
  | .family_two_earners, r => r.family_two_earners

def connector_color : String := "gray"

def highlight_color : String := "red"

/-- Connector line colour (script 1, line 54): red for "United Kingdom",
gray otherwise. -/
def lineColorFor (c : String) : String :=
  if c = "United Kingdom" then highlight_color else connector_color

/-- Connector line width (script 1, line 55): 3 for "United Kingdom",
1.5 otherwise. -/
def lineWidthFor (c : String) : ℚ :=
  if c = "United Kingdom" then 3 else 3 / 2

/-- Tick label (script 1, lines 78-82): "United Kingdom" is wrapped in
bold red markup, every other country name is used verbatim. -/
def tickLabelFor (c : String) : String :=
  if c = "United Kingdom" then
    "<b><span style=\x27color:" ++ highlight_color ++ ";\x27>" ++ c ++ "</span></b>"
  else c

/-- `df.sort_values(col_name, ascending=False)` (script 1, line 41):
rows reordered so that the chosen column is descending. -/
def sortRows (c : SortCol) (rows : List Row) : List Row :=
  List.insertionSort (fun a b => c.value b ≤ c.value a) rows

/-- The per-view payload stored in `sorted_data[col_name]`
(script 1, lines 84-91). Connector entries carry a style
(`some colour` / `some width`); the three point traces carry `None`. -/
structure View1 where
  trace_x_values : List (List ℚ)
  trace_y_values : List (List String)
  trace_line_colors : List (Option String)
  trace_line_widths : List (Option ℚ)
  tick_labels : List String
  country_order : List String
deriving DecidableEq, Repr

/-- The body of script 1's precompute loop (lines 40-91): one connector
entry per sorted row, then the three point traces appended in the fixed
order single worker, single-earner family, two-earner family. -/
def buildView (c : SortCol) (rows : List Row) : View1 :=
  let ds := sortRows c rows
  { trace_x_values :=
      ds.map (fun r => [r.single_worker, r.family_single_earner, r.family_two_earners]) ++
        [ds.map Row.single_worker, ds.map Row.family_single_earner,
          ds.map Row.family_two_earners]
    trace_y_values :=
      ds.map (fun r => [r.country, r.country, r.country]) ++
        [ds.map Row.country, ds.map Row.country, ds.map Row.country]
    trace_line_colors :=
      ds.map (fun r => some (lineColorFor r.country)) ++ [none, none, none]
    trace_line_widths :=
      ds.map (fun r => some (lineWidthFor r.country)) ++ [none, none, none]
    tick_labels := ds.map (fun r => tickLabelFor r.country)
    country_order := ds.map Row.country }

/-- A value carried by one key of a restyle dictionary. -/
inductive RestyleVal where
  | coords (v : List (List ℚ))
  | labels (v : List (List String))
  | colors (v : List (Option String))
  | widths (v : List (Option ℚ))
  | vis (v : List Vis)
deriving DecidableEq, Repr

/-- The restyle dictionary of one sort-dropdown button (script 1,
lines 234-244): exactly the keys `x`, `y`, `line.color`, `line.width`. -/
def sortButtonRestyle (c : SortCol) (rows : List Row) : List (String × RestyleVal) :=
  let d := buildView c rows
  [("x", RestyleVal.coords d.trace_x_values),
   ("y", RestyleVal.labels d.trace_y_values),
   ("line.color", RestyleVal.colors d.trace_line_colors),
   ("line.width", RestyleVal.widths d.trace_line_widths)]

/-- Look up a `visible` entry in a restyle dictionary. -/
def lookupVisible : List (String × RestyleVal) → Option (List Vis)
  | [] => none
  | (k, v) :: rest =>
    if k = "visible" then
      match v with
      | RestyleVal.vis m => some m
      | _ => none
    else lookupVisible rest

/-- The effect of a restyle dictionary on the figure's per-trace
visibility vector: a `visible` key replaces entries positionally, any
dictionary without that key leaves visibility untouched. -/
def updateVisible (restyle : List (String × RestyleVal)) (prior : List Vis) : List Vis :=
  match lookupVisible restyle with
  | some m => (List.range prior.length).map (fun i => (m.get? i).getD ((prior.get? i).getD Vis.hidden))
  | none => prior

/-- The trace-index list of the connector toggle (script 1, lines 257,
272, 276): connectors `0 .. n-1` then the three point traces. -/
def toggleIndices (n : ℕ) : List ℕ :=
  List.range n ++ [n, n + 1, n + 2]

/-- `args` mask of the toggle (line 271): connectors off, points on. -/
def toggleOffMask (n : ℕ) : List Vis :=
  List.replicate n Vis.hidden ++ [Vis.visible, Vis.visible, Vis.visible]

/-- `args2` mask of the toggle (line 275): connectors on, points on. -/
def toggleOnMask (n : ℕ) : List Vis :=
  List.replicate n Vis.visible ++ [Vis.visible, Vis.visible, Vis.visible]

/-- A plotly restyle with an explicit trace-index list: each listed
trace's visibility is set to the paired mask entry, in order. -/
def applyRestyleAt (indices : List ℕ) (mask : List Vis) (prior : List Vis) : List Vis :=
  (indices.zip mask).foldl (fun st q => st.set q.1 q.2) prior

/-- Example rows used by the concrete-scenario theorems. -/
def franceRow : Row :=
  { country := "France", single_worker := 3/10, family_single_earner := 35/100,
    family_two_earners := 2/5 }

def spainRow : Row :=
  { country := "Spain", single_worker := 28/100, family_single_earner := 3/10,
    family_two_earners := 45/100 }

example : (sortRows SortCol.family_two_earners [franceRow, spainRow]).map Row.country
    = ["Spain", "France"] := by
  norm_num [sortRows, franceRow, spainRow, SortCol.value]

example : lookupVisible (sortButtonRestyle SortCol.single_worker [franceRow]) = none := by decide

/- ------------------------------------------------------------------ -/
/- Script 2: `oecd_tax_wedge_all_countries_all_incomes.py`             -/
/- ------------------------------------------------------------------ -/

/-- One loaded sheet of script 2: the numeric index (income as % of the
average wage), the country columns, and per-column cell lists where a
missing spreadsheet cell is `none`. -/
structure Sheet where
  index : List ℚ
  columns : List String
  data : List (List (Option ℚ))
deriving DecidableEq, Repr

/-- The position and value of the last present cell strictly before
position `i` of a column. -/
def lastValidBefore (cells : List (Option ℚ)) : ℕ → Option (ℕ × ℚ)
  | 0 => none
  | i + 1 =>
    match cells[i]? with
    | some (some v) => some (i, v)
    | _ => lastValidBefore cells i

/-- Helper for `firstValidFrom`: first present cell of `rest`, whose head
sits at position `i` of the column. -/
def firstValidAux : List (Option ℚ) → ℕ → Option (ℕ × ℚ)
  | [], _ => none
  | c :: rest, i =>
    match c with
    | some v => some (i, v)
    | none => firstValidAux rest (i + 1)

/-- The position and value of the first present cell at position `i` or
later of a column. -/
def firstValidFrom (cells : List (Option ℚ)) (i : ℕ) : Option (ℕ × ℚ) :=
  firstValidAux (cells.drop i) i

/-- One cell of `interpolate(method='linear', axis=0)` (script 2,
line 41): a present cell is kept; a gap between two present cells is
filled linearly in the row position; a trailing gap repeats the last
present value; a leading gap stays missing. -/
def interpCell (cells : List (Option ℚ)) (i : ℕ) : Option ℚ :=
  match cells[i]? with
  | some (some v) => some v
  | _ =>
    match lastValidBefore cells i, firstValidFrom cells (i + 1) with
    | some jv, some kv =>
      some (jv.2 + (kv.2 - jv.2) * (((i : ℚ) - (jv.1 : ℚ)) / ((kv.1 : ℚ) - (jv.1 : ℚ))))
    | some jv, none => some jv.2
    | none, _ => none

/-- `interpolate(method='linear', axis=0)` applied to one column. -/
def interpolateColumn (cells : List (Option ℚ)) : List (Option ℚ) :=
  (List.range cells.length).map (interpCell cells)

/-- Script 2's gap-fill step applied to a whole sheet. -/
def interpolateSheet (s : Sheet) : Sheet :=
  { s with data := s.data.map interpolateColumn }

/-- `sheet_names` (script 2, lines 18-23). -/
def sheetNames : List String :=
  ["single_no_children", "single_two_children", "married_2_children", "married_no_children"]

/-- `default_sheet = sheet_names[0]` (script 2, line 78). -/
def defaultSheet : String := "single_no_children"

/-- The highlight list (script 2, line 76). -/
def highlight : List String :=
  ["United Kingdom", "United States", "France", "Germany", "Italy", "Spain",
   "Canada", "Sweden", "Belgium", "Netherlands", "Poland", "Türkiye"]

def red_country : String := "United Kingdom"

/-- The colour list (script 2, lines 53-58). -/
def colours : List String :=
  ["black", "blue", "blueviolet", "brown", "cadetblue", "chocolate", "coral",
   "crimson", "cyan", "darkblue",
   "darkcyan", "darkgoldenrod", "darkgreen", "darkmagenta", "darkolivegreen",
   "darkorange", "darkorchid", "darkred", "darksalmon", "darkslateblue",
   "darkslategray", "darkturquoise", "darkviolet", "deeppink", "deepskyblue",
   "dodgerblue", "firebrick", "forestgreen", "fuchsia", "green",
   "hotpink", "indianred", "indigo", "maroon", "mediumblue", "mediumorchid",
   "mediumseagreen", "mediumslateblue", "orangered", "purple"]

/-- Initial visibility of a (scenario, country) trace (script 2,
lines 83-87). -/
def initialVisFor (sheet country : String) : Vis :=
  if sheet = defaultSheet then
    (if country ∈ highlight then Vis.visible else Vis.legendonly)
  else Vis.hidden

/-- The line colour of a trace (script 2, line 100): red for the
highlighted country, otherwise the colour at the country's column
position; `none` when that position is out of the colour list's range. -/
def traceColour (country : String) (idx : ℕ) : Option String :=
  if country = red_country then some "red" else colours[idx]?

/-- One trace of script 2's figure. -/
structure Trace2 where
  sheet : String
  country : String
  visible : Vis
  colour : Option String
deriving DecidableEq, Repr

/-- The figure's trace list (script 2, lines 80-109): one trace per
(scenario sheet, country column), sheets in order, columns in order.
`sheets` pairs each sheet name with its country columns. -/
def figTraces (sheets : List (String × List String)) : List Trace2 :=
  sheets.flatMap (fun p => p.2.enum.map (fun q =>
    { sheet := p.1, country := q.2, visible := initialVisFor p.1 q.2,
      colour := traceColour q.2 q.1 }))

/-- One entry of a scenario button's visibility mask (script 2,
lines 118-125): for the button's own sheet, highlighted countries are
on and the rest legend-only; every other sheet's entry is hidden. -/
def maskEntry (sheet s country : String) : Vis :=
  if s = sheet then
    (if country ∈ highlight then Vis.visible else Vis.legendonly)
  else Vis.hidden

/-- The visibility mask of one scenario button (script 2, lines 114-131):
one entry per (sheet, country) pair, in figure order. -/
def buttonMask (sheets : List (String × List String)) (sheet : String) : List Vis :=
  sheets.flatMap (fun p => p.2.map (fun country => maskEntry sheet p.1 country))

/-- Excel column letters to a 1-based column number. -/
def excelColNum (s : List Char) : ℕ :=
  s.foldl (fun acc ch => acc * 26 + (ch.toNat - 64)) 0

/-- The number of spreadsheet columns selected by `usecols='B:AO'`
(script 2, line 31): columns `B` through `AO` inclusive. -/
def usecolsCount : ℕ := excelColNum ['A', 'O'] - excelColNum ['B'] + 1

example : usecolsCount = 40 := by decide

example : colours.length = 40 := by decide

/- ------------------------------------------------------------------ -/
/- Theorems                                                            -/
/- ------------------------------------------------------------------ -/

/-- The sort step of script 1's precompute loop really sorts: the chosen
column is descending along the reordered rows. -/
theorem sortRows_sorted (c : SortCol) (rows : List Row) :
    List.Sorted (fun a b => c.value b ≤ c.value a) (sortRows c rows) := by
  haveI : IsTotal Row (fun a b => c.value b ≤ c.value a) := ⟨fun a b => le_total _ _⟩
  haveI : IsTrans Row (fun a b => c.value b ≤ c.value a) :=
    ⟨fun _ _ _ hab hbd => le_trans hbd hab⟩
  exact List.sorted_insertionSort _ rows

/-- C4: for every sort column in script 1's view set, the sequence of that
column's values taken in the produced View's row order (the order of the
produced tick labels) is non-increasing. -/
theorem C4_view_order_nonincreasing (c : SortCol) (rows : List Row) :
    (buildView c rows).tick_labels = (sortRows c rows).map (fun r => tickLabelFor r.country) ∧
    ((sortRows c rows).map c.value).Sorted (· ≥ ·) := by
  refine ⟨rfl, ?_⟩
  have h := sortRows_sorted c rows
  rw [List.Sorted, List.pairwise_map]
  exact h

/-- C8: the concrete France/Spain table sorted descending by the third
measure gives row order [Spain, France], plain (unhighlighted) tick
labels, and the uniform neutral connector style everywhere. -/
theorem C8_concrete_scenario :
    (buildView SortCol.family_two_earners [franceRow, spainRow]).country_order
        = ["Spain", "France"] ∧
    (buildView SortCol.family_two_earners [franceRow, spainRow]).tick_labels
        = ["Spain", "France"] ∧
    (buildView SortCol.family_two_earners [franceRow, spainRow]).trace_line_colors
        = [some "gray", some "gray", none, none, none] ∧
    (buildView SortCol.family_two_earners [franceRow, spainRow]).trace_line_widths
        = [some (3 / 2), some (3 / 2), none, none, none] := by
  norm_num [buildView, sortRows, franceRow, spainRow, SortCol.value, tickLabelFor,
    lineColorFor, lineWidthFor, connector_color, highlight_color]
  decide

/-- A prior visibility state whose single connector trace is hidden. -/
def c2Prior : List Vis := [Vis.hidden, Vis.visible, Vis.visible, Vis.visible]

/-- C2 counterexample: applying a sort-dropdown button leaves a hidden
connector trace hidden — the button does not restore connectors to
visible. -/
theorem C2_counterexample :
    (updateVisible (sortButtonRestyle SortCol.single_worker [franceRow]) c2Prior).get? 0
        = some Vis.hidden ∧
    Vis.hidden ≠ Vis.visible := by decide

/-- C2 amended: no option of script 1's sort dropdown carries any
visibility assignment — its restyle dictionary has no `visible` key, so
applying it leaves every trace's visibility unchanged and the connector
toggle's state is persisted across View switches. -/
theorem C2_sort_buttons_keep_visibility (c : SortCol) (rows : List Row) (prior : List Vis) :
    lookupVisible (sortButtonRestyle c rows) = none ∧
    updateVisible (sortButtonRestyle c rows) prior = prior := by
  have h : lookupVisible (sortButtonRestyle c rows) = none := rfl
  exact ⟨h, by rw [updateVisible, h]⟩

/-- The toggle's index list is just `0 .. n+2` in order. -/
theorem toggleIndices_eq_range (n : ℕ) : toggleIndices n = List.range (n + 3) := by
  show List.range n ++ [n, n + 1, n + 2] = List.range (n + 3)
  rw [show n + 3 = (n + 2) + 1 from rfl, List.range_succ,
    show n + 2 = (n + 1) + 1 from rfl, List.range_succ, List.range_succ]
  simp

/-- Setting position `k` and truncating just past it splits the list at `k`. -/
theorem take_set_succ (l : List Vis) (k : ℕ) (a : Vis) (h : k < l.length) :
    (l.set k a).take (k + 1) = l.take k ++ [a] := by
  induction l generalizing k with
  | nil => simp at h
  | cons x xs ih =>
    cases k with
    | zero => simp
    | succ k =>
      simp only [List.set, List.take, List.cons_append]
      rw [ih k (by simpa using h)]

/-- Folding `set` over positions `k, k+1, ...` paired with `m` overwrites
the tail of `prior` from position `k` on with `m`. -/
theorem foldl_set_range' (m : List Vis) :
    ∀ (k : ℕ) (prior : List Vis), prior.length = k + m.length →
      ((List.range' k m.length).zip m).foldl (fun st q => st.set q.1 q.2) prior
        = prior.take k ++ m := by
  induction m with
  | nil =>
    intro k prior h
    simp only [List.length_nil, Nat.add_zero] at h
    simp [List.take_of_length_le (le_of_eq h)]
  | cons a m ih =>
    intro k prior h
    rw [List.length_cons] at h
    rw [show (a :: m).length = m.length + 1 from rfl, List.range'_succ]
    simp only [List.zip_cons_cons, List.foldl_cons]
    have hk : k < prior.length := by omega
    rw [ih (k + 1) (prior.set k a) (by rw [List.length_set]; omega)]
    rw [take_set_succ prior k a hk]
    simp

/-- A toggle activation overwrites the whole visibility vector with its
mask: the prior state does not survive. -/
theorem applyRestyleAt_toggle (mask prior : List Vis) (n : ℕ)
    (hm : mask.length = n + 3) (hp : prior.length = n + 3) :
    applyRestyleAt (toggleIndices n) mask prior = mask := by
  have h := foldl_set_range' mask 0 prior (by omega)
  rw [applyRestyleAt, toggleIndices_eq_range, List.range_eq_range', hm] at *
  simpa using h

theorem toggleOffMask_length (n : ℕ) : (toggleOffMask n).length = n + 3 := by
  simp [toggleOffMask]

theorem toggleOnMask_length (n : ℕ) : (toggleOnMask n).length = n + 3 := by
  simp [toggleOnMask]

/-- C7 counterexample: with one connector and a point-marker trace that
is currently hidden, activating the toggle changes that point trace's
visibility from hidden to visible — it is not left unchanged. -/
theorem C7_counterexample :
    ([Vis.visible, Vis.hidden, Vis.visible, Vis.visible] : List Vis).get? 1 = some Vis.hidden ∧
    (applyRestyleAt (toggleIndices 1) (toggleOffMask 1)
        [Vis.visible, Vis.hidden, Vis.visible, Vis.visible]).get? 1 = some Vis.visible ∧
    Vis.visible ≠ Vis.hidden := by decide

/-- C7 amended: each toggle activation replaces the whole visibility
vector with a fixed mask — connectors all hidden (`args`) or all visible
(`args2`) and the three point traces forced visible; the point traces'
visibility is therefore unchanged exactly when they were already
visible, not for arbitrary prior states. -/
theorem C7_toggle_connectors (n : ℕ) (prior : List Vis) (hp : prior.length = n + 3) :
    applyRestyleAt (toggleIndices n) (toggleOffMask n) prior = toggleOffMask n ∧
    applyRestyleAt (toggleIndices n) (toggleOnMask n) prior = toggleOnMask n ∧
    (toggleOffMask n).take n = List.replicate n Vis.hidden ∧
    (toggleOnMask n).take n = List.replicate n Vis.visible ∧
    (toggleOffMask n).drop n = [Vis.visible, Vis.visible, Vis.visible] ∧
    (toggleOnMask n).drop n = [Vis.visible, Vis.visible, Vis.visible] := by
  refine ⟨applyRestyleAt_toggle _ _ n (toggleOffMask_length n) hp,
    applyRestyleAt_toggle _ _ n (toggleOnMask_length n) hp, ?_, ?_, ?_, ?_⟩ <;>
    simp [toggleOffMask, toggleOnMask, List.take_left', List.drop_left']

/-- Closed instance of `C7_toggle_connectors` at one connector trace and
a concrete prior state. -/
theorem C7_toggle_connectors_witness :
    ([Vis.visible, Vis.hidden, Vis.visible, Vis.visible] : List Vis).length = 1 + 3 ∧
    applyRestyleAt (toggleIndices 1) (toggleOffMask 1)
        [Vis.visible, Vis.hidden, Vis.visible, Vis.visible] = toggleOffMask 1 :=
  ⟨by decide,
    (C7_toggle_connectors 1 [Vis.visible, Vis.hidden, Vis.visible, Vis.visible] (by decide)).1⟩

theorem interpolateColumn_length (cells : List (Option ℚ)) :
    (interpolateColumn cells).length = cells.length := by
  simp [interpolateColumn]

theorem interpolateColumn_getElem? (cells : List (Option ℚ)) (i : ℕ) (h : i < cells.length) :
    (interpolateColumn cells)[i]? = some (interpCell cells i) := by
  rw [interpolateColumn, List.getElem?_map]
  simp [List.getElem?_range, h]

/-- A present cell passes through the gap fill unchanged; hence on a
column with no gaps the fill is the identity. -/
theorem interpolateColumn_of_complete (cells : List (Option ℚ))
    (h : ∀ x ∈ cells, x.isSome) : interpolateColumn cells = cells := by
  apply List.ext_getElem?
  intro n
  by_cases hn : n < cells.length
  · obtain ⟨v, hv⟩ : ∃ v, cells[n]? = some (some v) := by
      have hc : cells[n]? = some cells[n] := List.getElem?_eq_getElem hn
      obtain ⟨v, hv⟩ := Option.isSome_iff_exists.1 (h cells[n] (List.getElem_mem hn))
      exact ⟨v, by rw [hc, hv]⟩
    rw [interpolateColumn_getElem? cells n hn, hv]
    simp [interpCell, hv]
  · rw [List.getElem?_eq_none (le_of_not_lt hn),
      List.getElem?_eq_none (le_of_not_lt (by rwa [interpolateColumn_length]))]

/-- C6: script 2's gap-fill policy is the identity on a table with no
missing values. -/
theorem C6_interpolate_complete_identity (s : Sheet)
    (h : ∀ col ∈ s.data, ∀ x ∈ col, x.isSome) : interpolateSheet s = s := by
  have hdata : s.data.map interpolateColumn = s.data := by
    have := List.map_congr_left (fun col hcol => interpolateColumn_of_complete col (h col hcol))
    simpa using this
  unfold interpolateSheet
  rw [hdata]

/-- A complete (gap-free) concrete sheet. -/
def c6Sheet : Sheet := { index := [1, 2], columns := ["France"], data := [[some 1, some 2]] }

/-- Closed instance of `C6_interpolate_complete_identity`. -/
theorem C6_interpolate_complete_identity_witness :
    (∀ col ∈ c6Sheet.data, ∀ x ∈ col, x.isSome) ∧ interpolateSheet c6Sheet = c6Sheet :=
  ⟨by decide, C6_interpolate_complete_identity c6Sheet (by decide)⟩

theorem lastValidBefore_lt {cells : List (Option ℚ)} {i j : ℕ} {v : ℚ}
    (h : lastValidBefore cells i = some (j, v)) : j < i := by
  induction i with
  | zero => simp [lastValidBefore] at h
  | succ i ih =>
    unfold lastValidBefore at h
    cases hc : cells[i]? with
    | none =>
      rw [hc] at h
      exact Nat.lt_succ_of_lt (ih h)
    | some c =>
      cases c with
      | none =>
        rw [hc] at h
        exact Nat.lt_succ_of_lt (ih h)
      | some w =>
        rw [hc] at h
        simp at h
        omega

theorem firstValidAux_le {l : List (Option ℚ)} : ∀ {i k : ℕ} {v : ℚ},
    firstValidAux l i = some (k, v) → i ≤ k := by
  induction l with
  | nil =>
    intro i k v h
    simp [firstValidAux] at h
  | cons c rest ih =>
    intro i k v h
    cases c with
    | none =>
      rw [firstValidAux] at h
      exact Nat.le_of_succ_le (ih h)
    | some w =>
      rw [firstValidAux] at h
      simp at h
      omega

theorem firstValidFrom_le {cells : List (Option ℚ)} {i k : ℕ} {v : ℚ}
    (h : firstValidFrom cells i = some (k, v)) : i ≤ k :=
  firstValidAux_le h

/-- C5 amended: a gap between two present cells is filled with the value
on the straight line through those cells as a function of ROW POSITION
(pandas `method='linear'` treats values as equally spaced), not of the
index value. -/
theorem C5_interpolation_positional (cells : List (Option ℚ)) (i j k : ℕ) (vj vk : ℚ)
    (hmiss : cells[i]? = some none)
    (hj : lastValidBefore cells i = some (j, vj))
    (hk : firstValidFrom cells (i + 1) = some (k, vk)) :
    ∃ w : ℚ, (interpolateColumn cells)[i]? = some (some w) ∧
      (w - vj) * ((k : ℚ) - (j : ℚ)) = (vk - vj) * ((i : ℚ) - (j : ℚ)) := by
  have hji : j < i := lastValidBefore_lt hj
  have hik : i + 1 ≤ k := firstValidFrom_le hk
  have hlen : i < cells.length := by
    by_contra hh
    rw [List.getElem?_eq_none (le_of_not_lt hh)] at hmiss
    exact Option.noConfusion hmiss
  refine ⟨vj + (vk - vj) * (((i : ℚ) - (j : ℚ)) / ((k : ℚ) - (j : ℚ))), ?_, ?_⟩
  · rw [interpolateColumn_getElem? cells i hlen]
    simp [interpCell, hmiss, hj, hk]
  · have hjk : (j : ℚ) < (k : ℚ) := by exact_mod_cast (by omega : j < k)
    have hkj : (k : ℚ) - (j : ℚ) ≠ 0 := sub_ne_zero_of_ne (ne_of_gt hjk)
    field_simp
    ring

/-- Closed instance of `C5_interpolation_positional`. -/
theorem C5_interpolation_positional_witness :
    ([some 0, none, some 3] : List (Option ℚ))[1]? = some none ∧
    lastValidBefore [some 0, none, some 3] 1 = some (0, 0) ∧
    firstValidFrom [some 0, none, some 3] 2 = some (2, 3) ∧
    ∃ w : ℚ, (interpolateColumn [some 0, none, some 3])[1]? = some (some w) ∧
      (w - 0) * (((2 : ℕ) : ℚ) - ((0 : ℕ) : ℚ)) = (3 - 0) * (((1 : ℕ) : ℚ) - ((0 : ℕ) : ℚ)) :=
  ⟨by decide, by decide, by decide,
    C5_interpolation_positional [some 0, none, some 3] 1 0 2 0 3
      (by decide) (by decide) (by decide)⟩

/-- A sheet whose index is NOT equally spaced, with one missing cell. -/
def c5Sheet : Sheet :=
  { index := [0, 1, 3], columns := ["A"], data := [[some 0, none, some 6]] }

/-- Modelled from the spec: the value at index `x` on the straight line
through the points `(x0, v0)` and `(x1, v1)`, as a function of the index
value (the spec's "linear interpolation along the numeric index"). -/
def specIndexLine (x0 v0 x1 v1 x : ℚ) : ℚ :=
  v0 + (v1 - v0) * ((x - x0) / (x1 - x0))

/-- C5 counterexample: on a column with index values 0, 1, 3 and present
cells (0, 0) and (3, 6), the code fills the gap at index 1 with 3 (the
midpoint of the two surrounding ROWS), while the straight line through
the present values as a function of the index gives 2. -/
theorem C5_counterexample :
    (interpolateSheet c5Sheet).data = [[some 0, some 3, some 6]] ∧
    c5Sheet.index = [0, 1, 3] ∧
    specIndexLine 0 0 3 6 1 = 2 ∧
    (3 : ℚ) ≠ 2 := by
  refine ⟨?_, rfl, by norm_num [specIndexLine], by norm_num⟩
  norm_num [interpolateSheet, c5Sheet, interpolateColumn, interpCell, lastValidBefore,
    firstValidFrom, firstValidAux, List.range_succ]

/-- A plain `map` over a list is a `map` over its enumeration that
ignores the position. -/
theorem map_eq_enum_map {α β : Type _} (f : α → β) (l : List α) :
    l.map f = l.enum.map (fun q => f q.2) := by
  conv_lhs => rw [← List.enum_map_snd l]
  rw [List.map_map]
  rfl

/-- Every scenario button's mask is the figure's trace list mapped
through the button's visibility rule: masks and traces enumerate the
same (sheet, country) pairs in the same order. -/
theorem buttonMask_eq_map (sheets : List (String × List String)) (sheet : String) :
    buttonMask sheets sheet
      = (figTraces sheets).map (fun t => maskEntry sheet t.sheet t.country) := by
  induction sheets with
  | nil => rfl
  | cons p rest ih =>
    simp only [buttonMask, figTraces, List.flatMap_cons, List.map_append, List.map_map] at ih ⊢
    rw [ih, map_eq_enum_map (fun c => maskEntry sheet p.1 c) p.2]
    rfl

theorem figTraces_length (sheets : List (String × List String)) :
    (figTraces sheets).length = (sheets.map fun p => p.2.length).sum := by
  induction sheets with
  | nil => rfl
  | cons p rest ih =>
    simp only [figTraces, List.flatMap_cons, List.length_append, List.length_map,
      List.enum_length, List.map_cons, List.sum_cons] at ih ⊢
    omega

/-- C1: every scenario button's visibility mask has one entry per trace
(its length is the series count summed over all scenarios), the entries
of the scenario the button designates follow the highlight rule
(`visible` for highlighted countries, `legendonly` otherwise), and every
entry belonging to another scenario is `hidden`. -/
theorem C1_scenario_button_masks (sheets : List (String × List String)) (sheet : String) :
    (buttonMask sheets sheet).length = (sheets.map fun p => p.2.length).sum ∧
    (buttonMask sheets sheet).length = (figTraces sheets).length ∧
    ∀ i : ℕ, (buttonMask sheets sheet)[i]?
      = ((figTraces sheets)[i]?).map (fun t =>
          if t.sheet = sheet then
            (if t.country ∈ highlight then Vis.visible else Vis.legendonly)
          else Vis.hidden) := by
  refine ⟨?_, ?_, ?_⟩
  · rw [buttonMask_eq_map, List.length_map, figTraces_length]
  · rw [buttonMask_eq_map, List.length_map]
  · intro i
    rw [buttonMask_eq_map, List.getElem?_map]
    rfl

/-- Each figure trace carries the initial visibility computed from its
own sheet and country. -/
theorem figTraces_visible (sheets : List (String × List String)) :
    ∀ t ∈ figTraces sheets, t.visible = initialVisFor t.sheet t.country := by
  intro t ht
  simp only [figTraces, List.mem_flatMap, List.mem_map] at ht
  obtain ⟨p, hp, q, hq, rfl⟩ := ht
  rfl

/-- C9: the visibility assigned at figure-construction time equals,
trace for trace, the mask of the dropdown button for the default
scenario `single_no_children`. -/
theorem C9_initial_state_matches_default_button (sheets : List (String × List String)) :
    (figTraces sheets).map Trace2.visible = buttonMask sheets defaultSheet := by
  rw [buttonMask_eq_map]
  apply List.map_congr_left
  intro t ht
  rw [figTraces_visible sheets t ht]
  rfl

theorem sortRows_length (c : SortCol) (rows : List Row) :
    (sortRows c rows).length = rows.length :=
  (List.perm_insertionSort (fun a b => c.value b ≤ c.value a) rows).length_eq

/-- C3: every View's per-trace arrays have identical length and
positional trace ordering as the initial view. Script 1: each of the
four arrays has `num_countries + 3` entries, the first `num_countries`
being the connector entries in sorted-row order and the last three the
point traces in their fixed order. Script 2: every button's visibility
mask has the figure's trace count and follows the figure's trace order. -/
theorem C3_views_positionally_aligned :
    (∀ (c : SortCol) (rows : List Row),
      (buildView c rows).trace_x_values.length = rows.length + 3 ∧
      (buildView c rows).trace_y_values.length = rows.length + 3 ∧
      (buildView c rows).trace_line_colors.length = rows.length + 3 ∧
      (buildView c rows).trace_line_widths.length = rows.length + 3 ∧
      (buildView c rows).trace_x_values.take rows.length
        = (sortRows c rows).map
            (fun r => [r.single_worker, r.family_single_earner, r.family_two_earners]) ∧
      (buildView c rows).trace_x_values.drop rows.length
        = [(sortRows c rows).map Row.single_worker,
           (sortRows c rows).map Row.family_single_earner,
           (sortRows c rows).map Row.family_two_earners] ∧
      (buildView c rows).trace_y_values.take rows.length
        = (sortRows c rows).map (fun r => [r.country, r.country, r.country]) ∧
      (buildView c rows).trace_y_values.drop rows.length
        = [(sortRows c rows).map Row.country,
           (sortRows c rows).map Row.country,
           (sortRows c rows).map Row.country] ∧
      (buildView c rows).trace_line_colors.take rows.length
        = (sortRows c rows).map (fun r => some (lineColorFor r.country)) ∧
      (buildView c rows).trace_line_colors.drop rows.length = [none, none, none] ∧
      (buildView c rows).trace_line_widths.take rows.length
        = (sortRows c rows).map (fun r => some (lineWidthFor r.country)) ∧
      (buildView c rows).trace_line_widths.drop rows.length = [none, none, none]) ∧
    (∀ (sheets : List (String × List String)) (sheet : String),
      (buttonMask sheets sheet).length = (figTraces sheets).length ∧
      buttonMask sheets sheet
        = (figTraces sheets).map (fun t => maskEntry sheet t.sheet t.country)) := by
  constructor
  · intro c rows
    have h1 : ((sortRows c rows).map
        (fun r => [r.single_worker, r.family_single_earner, r.family_two_earners])).length
        = rows.length := by rw [List.length_map, sortRows_length]
    have h2 : ((sortRows c rows).map (fun r => some (lineColorFor r.country))).length
        = rows.length := by rw [List.length_map, sortRows_length]
    have h3 : ((sortRows c rows).map (fun r => [r.country, r.country, r.country])).length
        = rows.length := by rw [List.length_map, sortRows_length]
    have h4 : ((sortRows c rows).map (fun r => some (lineWidthFor r.country))).length
        = rows.length := by rw [List.length_map, sortRows_length]
    refine ⟨?_, ?_, ?_, ?_, ?_, ?_, ?_, ?_, ?_, ?_, ?_, ?_⟩ <;> simp only [buildView]
    · rw [List.length_append, h1]; rfl
    · rw [List.length_append, h3]; rfl
    · rw [List.length_append, h2]; rfl
    · rw [List.length_append, h4]; rfl
    · exact List.take_left' h1
    · exact List.drop_left' h1
    · exact List.take_left' h3
    · exact List.drop_left' h3
    · exact List.take_left' h2
    · exact List.drop_left' h2
    · exact List.take_left' h4
    · exact List.drop_left' h4
  · intro sheets sheet
    exact ⟨by rw [buttonMask_eq_map, List.length_map], buttonMask_eq_map sheets sheet⟩

/-- C10: with at most `usecolsCount - 1 = 39` data columns per sheet
(columns `B:AO` minus the index column) and 40 colours, every per-trace
colour lookup succeeds. -/
theorem C10_colour_lookup_safe (sheets : List (String × List String))
    (h : ∀ p ∈ sheets, p.2.length ≤ usecolsCount - 1) :
    colours.length = usecolsCount ∧ ∀ t ∈ figTraces sheets, t.colour.isSome := by
  refine ⟨by decide, ?_⟩
  intro t ht
  simp only [figTraces, List.mem_flatMap, List.mem_map] at ht
  obtain ⟨p, hp, q, hq, rfl⟩ := ht
  show (traceColour q.2 q.1).isSome
  rw [traceColour]
  by_cases hc : q.2 = red_country
  · simp [hc]
  · rw [if_neg hc]
    have hsome : p.2[q.1]? = some q.2 := List.mem_enum_iff_getElem?.1 hq
    have hlt : q.1 < p.2.length := by
      by_contra hh
      rw [List.getElem?_eq_none (Nat.le_of_not_lt hh)] at hsome
      exact Option.noConfusion hsome
    have hcol : q.1 < colours.length := by
      have h39 : usecolsCount - 1 = 39 := by decide
      have h40 : colours.length = 40 := by decide
      have := h p hp
      omega
    rw [List.getElem?_eq_getElem hcol]
    rfl

/-- A concrete sheet assignment with two data columns. -/
def c10Sheets : List (String × List String) :=
  [("single_no_children", ["United Kingdom", "France"])]

/-- Closed instance of `C10_colour_lookup_safe`. -/
theorem C10_colour_lookup_safe_witness :
    (∀ p ∈ c10Sheets, p.2.length ≤ usecolsCount - 1) ∧
    (∀ t ∈ figTraces c10Sheets, t.colour.isSome) :=
  ⟨by decide, (C10_colour_lookup_safe c10Sheets (by decide)).2⟩


